import Mathlib

/-!
Verification of the mdbarr/indexer media-indexing pipeline.

This file shallowly embeds the data model and the operations of the indexer:
the shared `Common` policy (`src/common.js` together with the staged
`class Common` — the variant with `skip`, `insert`, `delete` and `spinner`
that the current converters instantiate), the video pipeline
(`src/video.js`), the text pipeline (`src/text.js`), the image record
constructor (the `Image.model` method), and the recursive directory scanner
(`src/scanner.js`, the async queue-worker variant).

External processes (ffmpeg, ffprobe, shasum, identify), the document store
and the search index are represented by an environment of oracle results and
by an explicit trace of effects, exactly in the order the JavaScript code
performs them.  The catalog (the `media` collection) is embedded as a list of
records, and the Mongo operations used by the code (`findOne` with the
`$or` query of `Common.lookup`, `insertOne`, `replaceOne`) as list operations.
-/

namespace Indexer

/-! ## Small JavaScript string helpers

These are written by structural recursion on the character list of the
string, so that concrete runs evaluate inside the kernel. -/

/-- Embedding of `strTake s n`: the first `n` characters. -/
def strTake (s : String) (n : Nat) : String := ⟨s.data.take n⟩

/-- Embedding of `strDrop s n`: all but the first `n` characters. -/
def strDrop (s : String) (n : Nat) : String := ⟨s.data.drop n⟩

/-- Embedding of `s.startsWith pre`. -/
def strStartsWith (s pre : String) : Bool := pre.data.isPrefixOf s.data

/-- Embedding of `s.endsWith suffix`. -/
def strEndsWith (s suf : String) : Bool := suf.data.isSuffixOf s.data

/-- Embedding of `String.prototype.trim`. -/
def jsTrim (s : String) : String :=
  ⟨((s.data.dropWhile Char.isWhitespace).reverse.dropWhile Char.isWhitespace).reverse⟩

/-- Split a character list at every occurrence of the character `c`
(`String.prototype.split` with a one-character separator). -/
def splitOnChar (c : Char) : List Char → List (List Char)
  | [] => [[]]
  | x :: rest =>
    match splitOnChar c rest with
    | [] => [[]]
    | h :: t => if x == c then [] :: h :: t else (x :: h) :: t

/-- Rejoin split pieces with the character `c` between them. -/
def joinChar (c : Char) : List (List Char) → List Char
  | [] => []
  | [p] => p
  | p :: ps => p ++ c :: joinChar c ps

/-- Replace the first occurrence of `pat` in a character list. -/
def jsReplaceFirstAux (pat repl : List Char) : List Char → List Char
  | [] => if pat.isEmpty then repl else []
  | c :: rest =>
    if pat.isPrefixOf (c :: rest) then repl ++ (c :: rest).drop pat.length
    else c :: jsReplaceFirstAux pat repl rest

/-- JavaScript `String.prototype.replace` with a plain-string pattern replaces
only the first occurrence.  (Used for `output.replace(config.save, '')` and
`output.replace(format, thumbnailFormat)`.) -/
def jsReplaceFirst (s pattern replacement : String) : String :=
  ⟨jsReplaceFirstAux pattern.data replacement.data s.data⟩

/-- Embedding of `.replace(/^\//, '')`: strip a single leading slash. -/
def stripLeadingSlash (s : String) : String :=
  match s.data with
  | '/' :: rest => ⟨rest⟩
  | _ => s

/-- Embedding of `file.match(/([^\/]+)\.([^.]+)$/)`: the basename of the path, split at its
last dot into name and extension. -/
def splitName (file : String) : String × String :=
  let base := (splitOnChar '/' file.data).getLastD []
  let parts := splitOnChar '.' base
  if parts.length ≥ 2 then
    (⟨joinChar '.' parts.dropLast⟩, ⟨parts.getLastD []⟩)
  else
    (⟨base⟩, "")

/-- Embedding of `file.replace(/\/([^\/]+)$/, '/')`: the parent directory of a path,
keeping the trailing slash (the `path` field of an occurrence). -/
def parentPath (file : String) : String :=
  let parts := splitOnChar '/' file.data
  if parts.length ≤ 1 then file
  else ⟨joinChar '/' parts.dropLast ++ ['/']⟩

/-- Embedding of `path.join(a, b)` for the simple two-component joins the code performs. -/
def joinPath (a b : String) : String := a ++ "/" ++ b

/-- Append an element to a list unless it is already present.  This is the
behaviour of `Set.prototype.add` followed by `Array.from`: JavaScript sets
preserve insertion order. -/
def dedupAppend (l : List String) (x : String) : List String :=
  if x ∈ l then l else l ++ [x]

/-- Embedding of `Array.from(new Set(xs))`: first occurrences, in order. -/
def dedupList (xs : List String) : List String :=
  xs.foldl dedupAppend []

theorem mem_foldl_dedupAppend (xs : List String) (acc : List String) (x : String) :
    x ∈ xs.foldl dedupAppend acc ↔ x ∈ acc ∨ x ∈ xs := by
  induction xs generalizing acc with
  | nil => simp
  | cons y ys ih =>
    simp only [List.foldl_cons, ih, dedupAppend]
    by_cases h : y ∈ acc
    · simp only [if_pos h, List.mem_cons]
      constructor
      · tauto
      · rintro (hx | rfl | hx)
        · tauto
        · exact Or.inl h
        · tauto
    · simp only [if_neg h, List.mem_append, List.mem_cons, List.mem_singleton]
      tauto

theorem mem_dedupList (xs : List String) (x : String) :
    x ∈ dedupList xs ↔ x ∈ xs := by
  simp [dedupList, mem_foldl_dedupAppend]

/-! ## JavaScript numbers

Only the parts of IEEE arithmetic the thumbnail-time computation exercises are
needed: NaN, the two infinities, and finite values (represented exactly as
rationals; the single subtraction by `1` the code performs is exact in this
range).  `Math.min` propagates NaN, `Math.floor` fixes NaN and infinities. -/

inductive JSNum where
  | nan : JSNum
  | inf : JSNum
  | ninf : JSNum
  | num (q : ℚ) : JSNum
deriving DecidableEq, Repr

/-- Embedding of `x - 1`. -/
def JSNum.subOne : JSNum → JSNum
  | .nan => .nan
  | .inf => .inf
  | .ninf => .ninf
  | .num q => .num (q - 1)

/-- Embedding of `Math.min`: NaN if either argument is NaN. -/
def jsMin : JSNum → JSNum → JSNum
  | .nan, _ => .nan
  | _, .nan => .nan
  | .ninf, _ => .ninf
  | _, .ninf => .ninf
  | .inf, b => b
  | a, .inf => a
  | .num a, .num b => .num (min a b)

/-- Embedding of `Math.floor`. -/
def JSNum.floor : JSNum → JSNum
  | .nan => .nan
  | .inf => .inf
  | .ninf => .ninf
  | .num q => .num (⌊q⌋ : ℚ)

/-- Embedding of `Number.isNaN(x)`. -/
def JSNum.isNaN : JSNum → Bool
  | .nan => true
  | _ => false

/-- Embedding of `x === Infinity` (strict equality with positive infinity only). -/
def JSNum.isPosInf : JSNum → Bool
  | .inf => true
  | _ => false

/-- Embedding of `x < 0` (false for NaN, false for `+Infinity`, true for `-Infinity`). -/
def JSNum.lt0 : JSNum → Bool
  | .nan => false
  | .inf => false
  | .ninf => true
  | .num q => decide (q < 0)

/-! ## Data model -/

/-- One filesystem observation of a work (`occurrence` objects built by the
converters).  `size` and `timestamp` are attached only after the source file
has been statted, hence optional. -/
structure Occurrence where
  id : String
  file : String
  path : String
  name : String
  extension : String
  size : Option Nat := none
  timestamp : Option Nat := none
deriving DecidableEq, Repr

/-- The sound-detection result of the video pipeline. -/
structure Sound where
  silent : Bool
  mean : ℚ
  max : ℚ
deriving DecidableEq, Repr

/-- The `metadata` sub-document of a catalog record. -/
structure Metadata where
  created : Nat
  added : Nat
  updated : Nat
  occurrences : List Occurrence
  series : Bool := false
  views : Nat := 0
  stars : Nat := 0
  favorited : Bool := false
  reviewed : Bool := false
  privateFlag : Bool := false
  tags : List String := []
deriving DecidableEq, Repr

/-- A catalog record (`media` collection document).  Fields a given pipeline
does not set are `none`; `contents` exists only transiently inside the text
pipeline (`delete model.contents` removes it before insertion). -/
structure MediaRecord where
  id : String
  object : String
  version : String
  name : String
  description : String
  hash : Option String
  sources : List String
  relative : String
  thumbnail : Option String := none
  preview : Option String := none
  subtitles : Option String := none
  size : Nat
  duration : Option JSNum := none
  aspect : Option String := none
  width : Option Nat := none
  height : Option Nat := none
  sound : Option Sound := none
  compression : Option String := none
  contents : Option String := none
  metadata : Metadata
  deleted : Bool := false
deriving DecidableEq, Repr

/-- The indexer's counters (`indexer.stats`). -/
structure Stats where
  converted : Nat := 0
  failed : Nat := 0
  duplicates : Nat := 0
  skipped : Nat := 0
  images : Nat := 0
  text : Nat := 0
  videos : Nat := 0
deriving DecidableEq, Repr

/-- The state a conversion reads and writes: the catalog and the counters. -/
structure IndexerState where
  catalog : List MediaRecord
  stats : Stats
deriving DecidableEq, Repr

/-- A buffer written to disk by the text pipeline, tagged with the
compression applied to the text. -/
inductive TextBuffer where
  | plain (s : String)
  | brotli (s : String)
  | gzip (s : String)
deriving DecidableEq, Repr

/-- Observable side effects of a conversion, in program order: filesystem
operations, external processes, catalog writes, search-index calls, events. -/
inductive Effect where
  | hashFile (path : String)
  | statFile (path : String)
  | probeFile (path : String)
  | readFile (path : String)
  | mkdir (dir : String)
  | chmod (path : String)
  | unlink (path : String)
  | rmdir (dir : String)
  | subtitleExtract (output : String)
  | convertSpawn (input output : String)
  | thumbnailExec (output thumbnail : String) (time : JSNum)
  | soundExec (path : String)
  | previewExec (input output : String)
  | writeFile (path : String) (buffer : TextBuffer)
  | insert (record : MediaRecord)
  | replaceRecord (id : String) (record : MediaRecord)
  | elasticIndex (index docId : String) (contents : Option String)
  | elasticRefresh (index : String)
  | emit (event : String)
deriving DecidableEq, Repr

/-! ## Common policy (src/common.js, plus the `delete` helper present in the
repo's companion Common variant) -/

/-- The tagger hook.  User-supplied taggers are external collaborators (out of
scope per the spec); per §3 the duplicate-merge's tagger pass refreshes
`metadata.tags`, and `Common.tag` then stamps `metadata.updated`.  With no
tagger configured the model is returned unchanged (no `updated` stamp). -/
def Common.tag (tagger : Option (List String → List String)) (now : Nat)
    (model : MediaRecord) : MediaRecord :=
  match tagger with
  | none => model
  | some f =>
      { model with
        metadata := { model.metadata with tags := f model.metadata.tags, updated := now } }

/-- Embedding of `Common.lookup`: `findOne` with
`$or: [{sources: id, deleted: {$ne: true}}, {sources: id}, {id}, {hash: id}]`,
i.e. the first catalog record matching any disjunct. -/
def Common.lookup (catalog : List MediaRecord) (id : String) : Option MediaRecord :=
  catalog.find? fun r =>
    (r.sources.contains id && !r.deleted) || r.sources.contains id ||
      r.id == id || r.hash == some id

/-- Embedding of `Common.duplicate` (src/common.js lines 6-42; the class
Common variant is identical on the record and additionally ends with a
`duplicate:<model.object>` emit, modelled in `Common.runDuplicate`) as a pure
function on the record: append the occurrence unless an existing occurrence
has the same `file`, rebuild `sources` from
`{model.id, model.hash, occurrence.id}` and all occurrence ids, then re-tag.
(Catalog records always carry a string `hash`, so the rebuilt `Set` only
ever holds strings.) -/
def Common.duplicate (tagger : Option (List String → List String)) (now : Nat)
    (model : MediaRecord) (occurrence : Occurrence) : MediaRecord :=
  let occurrences :=
    if model.metadata.occurrences.any (fun item => item.file == occurrence.file)
    then model.metadata.occurrences
    else model.metadata.occurrences ++ [occurrence]
  let sources := dedupList
    ([model.id] ++ (match model.hash with | some h => [h] | none => []) ++
      [occurrence.id] ++ occurrences.map (·.id))
  Common.tag tagger now
    { model with
      metadata := { model.metadata with occurrences := occurrences },
      sources := sources }

/-- Embedding of `replaceOne({id}, r)`: replace the first record with the given id. -/
def replaceFirstById : List MediaRecord → String → MediaRecord → List MediaRecord
  | [], _, _ => []
  | c :: cs, id, r => if c.id == id then r :: cs else c :: replaceFirstById cs id r

/-- Embedding of the `findOne({'metadata.occurrences.file': file})` query of
the class Common's `skip`: the first record that already lists this file
among its occurrences. -/
def Common.skipLookup (catalog : List MediaRecord) (file : String) :
    Option MediaRecord :=
  catalog.find? fun r => r.metadata.occurrences.any fun o => o.file == file

/-- Embedding of the class Common's `async skip (file)` called by the
image/text/video converters: with `canSkip` set and the delete policy off,
look up a record whose occurrences contain this file; on a hit, count the
skip and emit `skipped:<model.object>` (the found record's object kind). -/
def Common.skip (canSkip deletePolicy : Bool) (s : IndexerState)
    (file : String) : Option (IndexerState × List Effect) :=
  if canSkip && !deletePolicy then
    match Common.skipLookup s.catalog file with
    | some model =>
      some ({ s with stats := { s.stats with skipped := s.stats.skipped + 1 } },
        [Effect.emit ("skipped:" ++ model.object)])
    | none => none
  else none

/-- Embedding of the class Common's `async insert (model)`:
`insertOne` into the type's collection — appended to the single embedded
catalog (all types share the `media` collection by default). -/
def Common.insert (s : IndexerState) (model : MediaRecord) : IndexerState :=
  { s with catalog := s.catalog ++ [model] }

/-- Embedding of `Common.delete`: unlink the file when the delete policy allows. -/
def Common.deleteFile (deletePolicy : Bool) (file : String) : List Effect :=
  if deletePolicy then [Effect.unlink file] else []

/-- The full duplicate-merge step as run by the converters:
`stats.duplicates++`, merge the record, `replaceOne`, delete the new
occurrence's source file when the delete policy allows, then emit
`duplicate:<model.object>` (the class Common's `duplicate` ends with this
emit; the record's object kind is untouched by the merge). -/
def Common.runDuplicate (tagger : Option (List String → List String))
    (deletePolicy : Bool) (now : Nat) (s : IndexerState) (model : MediaRecord)
    (occurrence : Occurrence) : IndexerState × List Effect :=
  let update := Common.duplicate tagger now model occurrence
  ({ catalog := replaceFirstById s.catalog model.id update,
     stats := { s.stats with duplicates := s.stats.duplicates + 1 } },
   [Effect.replaceRecord model.id update] ++
     Common.deleteFile deletePolicy occurrence.file ++
     [Effect.emit ("duplicate:" ++ model.object)])

/-! ## Video pipeline (src/video.js) -/

/-- One stream of the ffprobe JSON. -/
structure StreamInfo where
  codec_type : String := ""
  display_aspect_ratio : Option String := none
  width : Option Nat := none
  height : Option Nat := none
deriving DecidableEq, Repr

/-- The JSON-decoded ffprobe result: `format.duration` (already passed through
`Number(...)`, `none` when absent) and the stream list. -/
structure ProbeInfo where
  formatDuration : Option JSNum := none
  streams : List StreamInfo := []
deriving DecidableEq, Repr

/-- The video pipeline's effective configuration (`config.types.video`
together with the cascaded global options it reads). -/
structure VideoConfig where
  type : String := "video"
  version : String := "1.0.0"
  save : String
  format : String := "mp4"
  thumbnailFormat : String := "png"
  subtitleFormat : String := "srt"
  index : String := "media-video"
  subtitlesIndex : String := "media-video-subtitles"
  thumbnailTime : JSNum := .num 5
  subtitlesToDescription : Bool := true
  checkSound : Bool := true
  soundThreshold : ℚ := -90
  elasticEnabled : Bool := true
  canSkip : Bool := true
  deletePolicy : Bool := false
  tagger : Option (List String → List String) := none

/-- Oracle results of the external processes and of the clock for one video
conversion: shasum outputs, stat results, probe JSON, subtitle extraction,
transcode exit code and the volume-detection parse. -/
structure VideoEnv where
  inflightMatch : Bool := false
  sourceHash : String
  statSize : Nat := 0
  statMtime : Nat := 0
  info : ProbeInfo := {}
  subtitlesText : Option String := none
  convertExit : Int := 0
  outputHash : String
  convertedSize : Nat := 0
  convertedMtime : Nat := 0
  outputInfo : ProbeInfo := {}
  maxVolume : Option ℚ := none
  meanVolume : Option ℚ := none
  now : Nat := 0

/-- Embedding of `directory = join(save, id.substring(0, 2))`. -/
def Video.directoryPath (cfg : VideoConfig) (id : String) : String :=
  joinPath cfg.save (strTake id 2)

/-- Embedding of `output = join(directory, id.substring(2) + '.' + format)`. -/
def Video.outputPath (cfg : VideoConfig) (id : String) : String :=
  joinPath (Video.directoryPath cfg id) (strDrop id 2 ++ "." ++ cfg.format)

/-- Embedding of `preview = join(directory, id.substring(2) + 'p.' + format)`. -/
def Video.previewPath (cfg : VideoConfig) (id : String) : String :=
  joinPath (Video.directoryPath cfg id) (strDrop id 2 ++ "p." ++ cfg.format)

/-- Embedding of `subtitlesFile = join(directory, id.substring(2) + '.' + subtitleFormat)`. -/
def Video.subtitlesPath (cfg : VideoConfig) (id : String) : String :=
  joinPath (Video.directoryPath cfg id) (strDrop id 2 ++ "." ++ cfg.subtitleFormat)

/-- Embedding of `Video.hasSound`: the default silent sentinel, refined by the parsed
`max_volume`/`mean_volume` levels when `checkSound` is enabled. -/
def Video.hasSound (cfg : VideoConfig) (env : VideoEnv) (file : String) :
    Sound × List Effect :=
  let sound : Sound := { silent := true, mean := -91, max := -91 }
  if !cfg.checkSound then (sound, [])
  else
    let sound := match env.maxVolume with
      | some level => { sound with max := level }
      | none => sound
    let sound := match env.meanVolume with
      | some level => { sound with mean := level }
      | none => sound
    let sound :=
      if sound.mean > cfg.soundThreshold then { sound with silent := false } else sound
    (sound, [Effect.soundExec file])

/-- The thumbnail capture time (src/video.js lines 472-476):
`Math.floor(Math.min(config.thumbnailTime, Number(duration) - 1))`, replaced
by `0` when the computed value is NaN, `Infinity`, or negative. -/
def thumbnailCaptureTime (thumbnailTime duration : JSNum) : JSNum :=
  let time := (jsMin thumbnailTime duration.subOne).floor
  if time.isNaN || time.isPosInf || time.lt0 then JSNum.num 0 else time

/-- Embedding of `Video.model` (src/video.js lines 53-125). -/
def Video.model (cfg : VideoConfig) (now : Nat) (id hash : String)
    (occurrence : Occurrence) (occurrences : Option (List Occurrence))
    (output : String) (convertedSize convertedMtime : Nat)
    (thumbnail preview : String) (subtitles : Option String)
    (info : ProbeInfo) (sound : Sound) : MediaRecord :=
  let aspect := info.streams.foldl
    (fun acc stream => match stream.display_aspect_ratio with
      | some r => some r
      | none => acc) none
  let width := info.streams.foldl
    (fun acc stream => match stream.width with
      | some w => some w
      | none => acc) none
  let height := info.streams.foldl
    (fun acc stream => match stream.height with
      | some h => some h
      | none => acc) none
  let sources := dedupList
    ([id, hash] ++ [occurrence.id] ++
      (match occurrences with | some items => items.map (·.id) | none => []))
  { id := id
    object := cfg.type
    version := cfg.version
    name := occurrence.name
    description := ""
    hash := some hash
    sources := sources
    relative := stripLeadingSlash (jsReplaceFirst output cfg.save "")
    thumbnail := some (stripLeadingSlash (jsReplaceFirst thumbnail cfg.save ""))
    preview := some (stripLeadingSlash (jsReplaceFirst preview cfg.save ""))
    subtitles := subtitles.map (fun sf => stripLeadingSlash (jsReplaceFirst sf cfg.save ""))
    size := convertedSize
    duration := info.formatDuration
    aspect := aspect
    width := width
    height := height
    sound := some sound
    metadata := {
      created := convertedMtime
      added := now
      updated := now
      occurrences := occurrences.getD [occurrence]
      tags := [] }
    deleted := false }

/-- The occurrence object as first built by the video converter, before the
source file has been statted. -/
def Video.baseOccurrence (env : VideoEnv) (file : String) : Occurrence :=
  { id := env.sourceHash, file := file, path := parentPath file,
    name := (splitName file).1, extension := (splitName file).2 }

/-- The occurrence object after `occurrence.size`/`occurrence.timestamp` are
attached from the source stat. -/
def Video.statOccurrence (env : VideoEnv) (file : String) : Occurrence :=
  { Video.baseOccurrence env file with
    size := some env.statSize
    timestamp := some env.statMtime }

/-- Embedding of `Video.converter` (src/video.js lines 324-551), embedded sequentially for
one slot (`inflightMatch` stands for "a sibling slot already holds this
fingerprint").  Returns the updated state and the effect trace in program
order. -/
def Video.converter (cfg : VideoConfig) (env : VideoEnv) (s : IndexerState)
    (file : String) : IndexerState × List Effect :=
  match Common.skip cfg.canSkip cfg.deletePolicy s file with
  | some r => r
  | none =>
    let id := env.sourceHash
    let occurrence := Video.baseOccurrence env file
    let trace0 := [Effect.hashFile file]
    if env.inflightMatch then (s, trace0)
    else
      match Common.lookup s.catalog id with
      | some item =>
        let r := Common.runDuplicate cfg.tagger cfg.deletePolicy env.now s item occurrence
        (r.1, trace0 ++ r.2)
      | none =>
        let occurrence := Video.statOccurrence env file
        let directory := Video.directoryPath cfg id
        let output := Video.outputPath cfg id
        let preview := Video.previewPath cfg id
        let subtitlesFile := Video.subtitlesPath cfg id
        let subtitles := env.subtitlesText
        let trace1 := trace0 ++ [Effect.probeFile file, Effect.mkdir directory,
          Effect.subtitleExtract subtitlesFile, Effect.convertSpawn file output]
        if env.convertExit ≠ 0 then
          ({ s with stats := { s.stats with failed := s.stats.failed + 1 } },
           trace1 ++ [Effect.unlink output])
        else
          let hash := env.outputHash
          let trace2 := trace1 ++ [Effect.chmod output, Effect.hashFile output]
          match Common.lookup s.catalog hash with
          | some dup =>
            let r := Common.runDuplicate cfg.tagger cfg.deletePolicy env.now s dup occurrence
            (r.1, trace2 ++ r.2 ++ [Effect.unlink output, Effect.rmdir directory])
          | none =>
            let thumbnail := jsReplaceFirst output cfg.format cfg.thumbnailFormat
            let time := thumbnailCaptureTime cfg.thumbnailTime
              (match env.info.formatDuration with | some d => d | none => JSNum.nan)
            let soundR := Video.hasSound cfg env output
            let trace3 := trace2 ++ [Effect.thumbnailExec output thumbnail time,
              Effect.chmod thumbnail, Effect.probeFile output] ++ soundR.2 ++
              [Effect.previewExec output preview]
            let model := Video.model cfg env.now id hash occurrence (some [occurrence])
              output env.convertedSize env.convertedMtime thumbnail preview
              (subtitles.map (fun _ => subtitlesFile)) env.outputInfo soundR.1
            let model := match subtitles with
              | some text =>
                if cfg.subtitlesToDescription then { model with description := text }
                else model
              | none => model
            let subtitleIndexEffects := match subtitles with
              | some text =>
                if cfg.subtitlesToDescription && cfg.elasticEnabled then
                  [Effect.elasticIndex cfg.subtitlesIndex id (some text),
                   Effect.elasticRefresh cfg.subtitlesIndex]
                else []
              | none => []
            let model := Common.tag cfg.tagger env.now model
            let elasticEffects :=
              if cfg.elasticEnabled then
                [Effect.elasticIndex cfg.index id none, Effect.elasticRefresh cfg.index]
              else []
            let s1 := Common.insert s model
            let s2 := { s1 with stats := { s1.stats with
              videos := s1.stats.videos + 1, converted := s1.stats.converted + 1 } }
            (s2,
             trace3 ++ subtitleIndexEffects ++ elasticEffects ++
               [Effect.insert model] ++ Common.deleteFile cfg.deletePolicy file ++
               [Effect.emit "indexed:video"])

/-! ## Image record construction (the image pipeline's `model` method) -/

/-- The parts of the image configuration the record constructor reads. -/
structure ImageConfig where
  type : String := "image"
  version : String := "1.0.0"
  save : String
  tagger : Option (List String → List String) := none

/-- The width/height/aspect extracted by the identify-output parser. -/
structure ImageDetails where
  aspect : Option ℚ := none
  width : Option Nat := none
  height : Option Nat := none
deriving DecidableEq, Repr

/-- Embedding of `Image.model` (the image pipeline's record constructor). -/
def Image.model (cfg : ImageConfig) (now : Nat) (id hash : String)
    (occurrence : Occurrence) (occurrences : Option (List Occurrence))
    (output : String) (statSize statMtime : Nat)
    (thumbnail : String) (preview : Option String)
    (details : ImageDetails) : MediaRecord :=
  let sources := dedupList
    ([id, hash] ++ [occurrence.id] ++
      (match occurrences with | some items => items.map (·.id) | none => []))
  { id := id
    object := cfg.type
    version := cfg.version
    name := occurrence.name
    description := ""
    hash := some hash
    sources := sources
    relative := stripLeadingSlash (jsReplaceFirst output cfg.save "")
    thumbnail := some (stripLeadingSlash (jsReplaceFirst thumbnail cfg.save ""))
    preview := preview.map (fun p => stripLeadingSlash (jsReplaceFirst p cfg.save ""))
    size := statSize
    width := details.width
    height := details.height
    metadata := {
      created := statMtime
      added := now
      updated := now
      occurrences := occurrences.getD [occurrence]
      tags := [] }
    deleted := false }

/-! ## Text pipeline (src/text.js) -/

/-- The text pipeline's effective configuration.  `threshold` is read as
`config.threshold`; when absent, the JavaScript comparison
`stat.size < undefined` is false, so nothing is skipped. -/
structure TextConfig where
  version : String := "1.0.0"
  save : String
  index : String := "media-text"
  compression : String := "brotli"
  threshold : Option Nat := none
  summarize : Nat := 5
  summaryFallback : Nat := 1000
  processor : Option (String → String) := none
  elasticEnabled : Bool := true
  canSkip : Bool := true
  deletePolicy : Bool := false
  tagger : Option (List String → List String) := none

/-- Oracle results for one text conversion: the shasum, the stat, the file
contents, the md5 of the processed text, the summarizer result and the size
of the written artifact. -/
structure TextEnv where
  inflightMatch : Bool := false
  sourceHash : String
  statSize : Nat := 0
  statMtime : Nat := 0
  contents : String := ""
  md5 : String
  summary : Option String := none
  outputSize : Nat := 0
  now : Nat := 0

/-- Embedding of `Text.model` (src/text.js lines 19-62): the object kind is the literal
`'text'` and `hash` starts out null. -/
def Text.model (cfg : TextConfig) (now : Nat) (id : String)
    (occurrence : Occurrence) (occurrences : Option (List Occurrence))
    (output : String) (statSize statMtime : Nat) : MediaRecord :=
  let sources := dedupList
    ([id] ++ [occurrence.id] ++
      (match occurrences with | some items => items.map (·.id) | none => []))
  { id := id
    object := "text"
    version := cfg.version
    name := occurrence.name
    description := ""
    hash := none
    sources := sources
    relative := stripLeadingSlash (jsReplaceFirst output cfg.save "")
    size := statSize
    compression := some cfg.compression
    metadata := {
      created := statMtime
      added := now
      updated := now
      occurrences := occurrences.getD [occurrence]
      tags := [] }
    deleted := false }

/-- Embedding of `output = join(directory, filename + '.' + extension)` plus the `.br` or
`.gz` suffix when compression is configured. -/
def Text.outputPath (cfg : TextConfig) (id extension : String) : String :=
  let base := joinPath (joinPath cfg.save (strTake id 2)) (strDrop id 2 ++ "." ++ extension)
  if cfg.compression == "brotli" then base ++ ".br"
  else if cfg.compression == "gzip" then base ++ ".gz"
  else base

/-- The buffer written to the canonical artifact, per `model.compression`. -/
def Text.compressBuffer (compression : Option String) (text : String) : TextBuffer :=
  if compression == some "brotli" then TextBuffer.brotli text
  else if compression == some "gzip" then TextBuffer.gzip text
  else TextBuffer.plain text

/-- The description computed by the text converter: the summarizer result when
summarization is configured and produced a string, else the trimmed text
truncated to `summaryFallback`. -/
def Text.description (cfg : TextConfig) (text : String) (summary : Option String) : String :=
  let fromSummary := if cfg.summarize > 0 then summary.getD "" else ""
  if fromSummary == "" then strTake (jsTrim text) cfg.summaryFallback else fromSummary

/-- The record value the text converter inserts (src/text.js lines 148-228):
the base model with the content hash set and added to `sources`, the
description filled in, the transient `contents` set and then deleted again
around tagging and search indexing, and `size` updated to the written
artifact's size. -/
def Text.finalModel (cfg : TextConfig) (now : Nat) (id : String)
    (occurrence : Occurrence) (occurrences : Option (List Occurrence))
    (output : String) (statSize statMtime : Nat) (text hash : String)
    (summary : Option String) (outputSize : Nat) : MediaRecord :=
  let m := Text.model cfg now id occurrence occurrences output statSize statMtime
  let m := { m with hash := some hash }
  let m := { m with sources := dedupAppend m.sources hash }
  let m := { m with description := Text.description cfg text summary }
  let m := { m with contents := some text }
  let m := Common.tag cfg.tagger now m
  let m := { m with contents := none }
  { m with size := outputSize }

/-- The occurrence object as first built by the text converter. -/
def Text.baseOccurrence (env : TextEnv) (file : String) : Occurrence :=
  { id := env.sourceHash, file := file, path := parentPath file,
    name := (splitName file).1, extension := (splitName file).2 }

/-- The occurrence object after the source stat is attached. -/
def Text.statOccurrence (env : TextEnv) (file : String) : Occurrence :=
  { Text.baseOccurrence env file with
    size := some env.statSize
    timestamp := some env.statMtime }

/-- The text the converter works with: the raw contents, transformed by the
configured `processor` hook when present. -/
def Text.processedText (cfg : TextConfig) (env : TextEnv) : String :=
  match cfg.processor with
  | some f => f env.contents
  | none => env.contents

/-- Embedding of `Text.converter` (src/text.js lines 75-243).  The search-index write and
refresh are unconditional in the source: unlike the image and video
pipelines, the text pipeline never consults `services.elastic.enabled`. -/
def Text.converter (cfg : TextConfig) (env : TextEnv) (s : IndexerState)
    (file : String) : IndexerState × List Effect :=
  match Common.skip cfg.canSkip cfg.deletePolicy s file with
  | some r => r
  | none =>
    let extension := (splitName file).2
    let id := env.sourceHash
    let occurrence := Text.baseOccurrence env file
    let trace0 := [Effect.hashFile file]
    if env.inflightMatch then (s, trace0)
    else
      match Common.lookup s.catalog id with
      | some item =>
        let r := Common.runDuplicate cfg.tagger cfg.deletePolicy env.now s item occurrence
        (r.1, trace0 ++ r.2)
      | none =>
        let trace1 := trace0 ++ [Effect.statFile file]
        if (match cfg.threshold with
            | some t => decide (env.statSize < t)
            | none => false) then
          (s, trace1)
        else
          let occurrence := Text.statOccurrence env file
          let directory := joinPath cfg.save (strTake id 2)
          let output := Text.outputPath cfg id extension
          let trace2 := trace1 ++ [Effect.mkdir directory, Effect.readFile file]
          let text := Text.processedText cfg env
          let hash := env.md5
          match (if hash == id then none else Common.lookup s.catalog hash) with
          | some dup =>
            let r := Common.runDuplicate cfg.tagger cfg.deletePolicy env.now s dup occurrence
            (r.1, trace2 ++ r.2)
          | none =>
            let model := Text.finalModel cfg env.now id occurrence (some [occurrence])
              output env.statSize env.statMtime text hash env.summary env.outputSize
            let buffer := Text.compressBuffer (some cfg.compression) text
            let s1 : IndexerState :=
              { catalog := s.catalog ++ [model]
                stats := { s.stats with
                  text := s.stats.text + 1
                  converted := s.stats.converted + 1 } }
            (s1,
             trace2 ++
               [Effect.elasticIndex cfg.index id (some text),
                Effect.elasticRefresh cfg.index,
                Effect.writeFile output buffer,
                Effect.statFile output,
                Effect.insert model] ++
               Common.deleteFile cfg.deletePolicy file ++
               [Effect.emit "indexed:text"])

/-! ## Scanner (src/scanner.js, async queue-worker variant) -/

/-- A directory entry as returned by `readdir(..., { withFileTypes: true })`. -/
structure DirEntry where
  name : String
  isDirectory : Bool := false
  isFile : Bool := false
  isSymbolicLink : Bool := false
deriving DecidableEq, Repr

/-- One `enabled`/`pattern` block of `config.types`. -/
structure TypeConfig where
  enabled : Bool := true
  pattern : String → Bool

/-- Scanner configuration. -/
structure ScannerConfig where
  types : List (String × TypeConfig) := []
  exclude : Option (String → Bool) := none
  recursive : Bool := true
  dotfiles : Bool := false
  sortEntries : Bool := false
  maxDepth : Nat := 25
  followSymlinks : Bool := true

/-- The filesystem the scanner walks: directory listings and symlink
resolution (`fs.realpath`). -/
structure ScanEnv where
  readdir : String → List DirEntry
  resolve : String → String

/-- An item of the scanner's work queue. -/
structure QueueItem where
  directory : String
  depth : Nat
deriving DecidableEq, Repr

/-- Scanner state: the `seen` set, the counters, the pending queue, the
emitted `file:<kind>` events as (kind, path) pairs, and the deep-directory
warnings the worker logs. -/
structure ScanState where
  seen : List String := []
  directories : Nat := 0
  files : Nat := 0
  queue : List QueueItem := []
  emitted : List (String × String) := []
  warnings : List String := []
deriving DecidableEq, Repr

/-- Embedding of `Scanner.realpath`: resolve symlinks, otherwise just join. -/
def Scanner.realpath (env : ScanEnv) (directory : String) (entry : DirEntry) : String :=
  if entry.isSymbolicLink then env.resolve (joinPath directory entry.name)
  else joinPath directory entry.name

/-- The first enabled type whose pattern matches the path (`kind` stays
`'unknown'`, i.e. `none`, when nothing matches). -/
def Scanner.findKind : List (String × TypeConfig) → String → Option String
  | [], _ => none
  | (kind, tc) :: rest, path =>
    if tc.enabled && tc.pattern path then some kind
    else Scanner.findKind rest path

/-- Insertion into a name-sorted entry list. -/
def Scanner.insertByName (e : DirEntry) : List DirEntry → List DirEntry
  | [] => [e]
  | x :: xs => if e.name ≤ x.name then e :: x :: xs else x :: Scanner.insertByName e xs

/-- Embedding of `entries.sort` with the lexicographic name comparator (the exact sorting
algorithm is irrelevant to the properties proved here; any sort by name). -/
def Scanner.sortByName : List DirEntry → List DirEntry
  | [] => []
  | x :: xs => Scanner.insertByName x (Scanner.sortByName xs)

/-- The per-entry body of the scanner worker (src/scanner.js lines 56-118). -/
def Scanner.processEntry (cfg : ScannerConfig) (env : ScanEnv)
    (directory : String) (depth : Nat) (st : ScanState) (entry : DirEntry) :
    ScanState :=
  if cfg.dotfiles = false ∧ strStartsWith entry.name "." then st
  else if entry.isDirectory ∧ ¬cfg.recursive then st
  else if entry.isDirectory ∧ entry.isSymbolicLink ∧ ¬cfg.followSymlinks then st
  else
    let path := Scanner.realpath env directory entry
    if path ∈ st.seen then st
    else if entry.isDirectory then
      if (match cfg.exclude with | some ex => ex path | none => false) then st
      else { st with queue := st.queue ++ [⟨path, depth + 1⟩] }
    else if entry.isFile then
      match Scanner.findKind cfg.types path with
      | none => st
      | some kind =>
        { st with
          seen := st.seen ++ [path]
          files := st.files + 1
          emitted := st.emitted ++ [(kind, path)] }
    else st

/-- One execution of the scanner's queue worker on an item (src/scanner.js
lines 27-119).  When `depth > maxDepth` the worker logs the deep directory —
and then continues: the source has no `return` in that branch. -/
def Scanner.processItem (cfg : ScannerConfig) (env : ScanEnv) (st : ScanState)
    (item : QueueItem) : ScanState :=
  let st := if item.depth > cfg.maxDepth
    then { st with warnings := st.warnings ++ [item.directory] }
    else st
  if item.directory ∈ st.seen then st
  else
    let st := { st with
      seen := st.seen ++ [item.directory]
      directories := st.directories + 1 }
    let entries := env.readdir item.directory
    let entries := if cfg.sortEntries then Scanner.sortByName entries else entries
    entries.foldl (Scanner.processEntry cfg env item.directory item.depth) st

/-- Run the scanner until the queue drains (or fuel runs out): repeatedly pop
the first queued item and run the worker on it. -/
def Scanner.run (cfg : ScannerConfig) (env : ScanEnv) : Nat → ScanState → ScanState
  | 0, st => st
  | fuel + 1, st =>
    match st.queue with
    | [] => st
    | item :: rest =>
      Scanner.run cfg env fuel
        (Scanner.processItem cfg env { st with queue := rest } item)

/-- Embedding of `Scanner.add(roots)`: the initial state (roots enqueued at depth 0). -/
def Scanner.initState (roots : List String) : ScanState :=
  { queue := roots.map (fun r => ⟨r, 0⟩) }

/-! ## Catalog record invariants -/

/-- When the record carries a hash, the hash is among its sources. -/
def hashInSources (r : MediaRecord) : Prop :=
  match r.hash with
  | some h => h ∈ r.sources
  | none => True

/-- The sources invariant of §8: the record can be looked up by its `id`, its
`hash`, and the `id` of each of its occurrences. -/
def recordInvariant (r : MediaRecord) : Prop :=
  r.id ∈ r.sources ∧ hashInSources r ∧
    ∀ o ∈ r.metadata.occurrences, o.id ∈ r.sources

/-- No two occurrences of the record share the same `file`. -/
def occurrenceFilesNodup (r : MediaRecord) : Prop :=
  (r.metadata.occurrences.map (·.file)).Nodup

instance (r : MediaRecord) : Decidable (occurrenceFilesNodup r) := by
  unfold occurrenceFilesNodup; infer_instance

instance (r : MediaRecord) : Decidable (hashInSources r) := by
  unfold hashInSources
  cases r.hash <;> infer_instance

instance (r : MediaRecord) : Decidable (recordInvariant r) := by
  unfold recordInvariant; infer_instance

/-! ## Scanner lemmas -/

/-- The scan invariant: emitted file paths are pairwise distinct and each one
is recorded in `seen`. -/
def ScanInv (st : ScanState) : Prop :=
  (st.emitted.map Prod.snd).Nodup ∧ ∀ p ∈ st.emitted.map Prod.snd, p ∈ st.seen

theorem processEntry_scanInv (cfg : ScannerConfig) (env : ScanEnv)
    (directory : String) (depth : Nat) (st : ScanState) (entry : DirEntry)
    (h : ScanInv st) : ScanInv (Scanner.processEntry cfg env directory depth st entry) := by
  unfold Scanner.processEntry
  dsimp only
  split
  · exact h
  split
  · exact h
  split
  · exact h
  split
  case isTrue => exact h
  case isFalse hseen =>
    split
    case isTrue =>
      split
      · exact h
      · exact h
    case isFalse =>
      split
      case isTrue =>
        split
        case h_1 => exact h
        case h_2 kind heq =>
          obtain ⟨h1, h2⟩ := h
          constructor
          · simp only [List.map_append, List.map_cons, List.map_nil]
            rw [List.nodup_append]
            refine ⟨h1, List.nodup_singleton _, ?_⟩
            intro p hp hq
            simp only [List.mem_singleton] at hq
            subst hq
            exact hseen (h2 _ hp)
          · intro p hp
            simp only [List.map_append, List.map_cons, List.map_nil,
              List.mem_append, List.mem_singleton] at hp
            rcases hp with hp | rfl
            · exact List.mem_append_left _ (h2 p hp)
            · exact List.mem_append_right _ (List.mem_singleton_self _)
      case isFalse => exact h

theorem foldl_processEntry_scanInv (cfg : ScannerConfig) (env : ScanEnv)
    (directory : String) (depth : Nat) (entries : List DirEntry)
    (st : ScanState) (h : ScanInv st) :
    ScanInv (entries.foldl (Scanner.processEntry cfg env directory depth) st) := by
  induction entries generalizing st with
  | nil => exact h
  | cons e es ih =>
    exact ih _ (processEntry_scanInv cfg env directory depth st e h)

theorem processItem_scanInv (cfg : ScannerConfig) (env : ScanEnv)
    (st : ScanState) (item : QueueItem) (h : ScanInv st) :
    ScanInv (Scanner.processItem cfg env st item) := by
  unfold Scanner.processItem
  dsimp only
  have h1 : ScanInv (if item.depth > cfg.maxDepth
      then { st with warnings := st.warnings ++ [item.directory] }
      else st) := by
    split <;> exact h
  generalize hst1 : (if item.depth > cfg.maxDepth
      then { st with warnings := st.warnings ++ [item.directory] }
      else st) = st1 at h1 ⊢
  split
  · exact h1
  · apply foldl_processEntry_scanInv
    refine ⟨h1.1, ?_⟩
    intro p hp
    exact List.mem_append_left _ (h1.2 p hp)

theorem run_scanInv (cfg : ScannerConfig) (env : ScanEnv) (fuel : Nat)
    (st : ScanState) (h : ScanInv st) :
    ScanInv (Scanner.run cfg env fuel st) := by
  induction fuel generalizing st with
  | zero => exact h
  | succ n ih =>
    unfold Scanner.run
    split
    · exact h
    · exact ih _ (processItem_scanInv cfg env _ _ ⟨h.1, h.2⟩)

/-! ## Claim theorems -/

/-- C9: every scanned-file event the scanner emits is for a resolved real
path that was not in `seen` at the moment of emission and is added to `seen`
by the emission (third conjunct, at the per-entry step level); consequently,
over a whole scan from a fresh state, the emitted real paths are pairwise
distinct and all recorded in `seen` — each real path is emitted at most once
per scan, also in the presence of symlink cycles (the environment's `resolve`
is arbitrary). -/
theorem scanner_emits_each_real_path_once (cfg : ScannerConfig) (env : ScanEnv)
    (fuel : Nat) (roots : List String) :
    ((Scanner.run cfg env fuel (Scanner.initState roots)).emitted.map Prod.snd).Nodup ∧
    (∀ p ∈ (Scanner.run cfg env fuel (Scanner.initState roots)).emitted.map Prod.snd,
      p ∈ (Scanner.run cfg env fuel (Scanner.initState roots)).seen) ∧
    (∀ (directory : String) (depth : Nat) (st : ScanState) (entry : DirEntry),
      (Scanner.processEntry cfg env directory depth st entry).emitted ≠ st.emitted →
        ∃ kind,
          (Scanner.processEntry cfg env directory depth st entry).emitted
            = st.emitted ++ [(kind, Scanner.realpath env directory entry)] ∧
          Scanner.realpath env directory entry ∉ st.seen ∧
          Scanner.realpath env directory entry
            ∈ (Scanner.processEntry cfg env directory depth st entry).seen) := by
  have hrun := run_scanInv cfg env fuel (Scanner.initState roots)
    ⟨by simp [Scanner.initState], by simp [Scanner.initState]⟩
  refine ⟨hrun.1, hrun.2, ?_⟩
  intro directory depth st entry hne
  revert hne
  unfold Scanner.processEntry
  dsimp only
  split
  · intro hne; exact absurd rfl hne
  split
  · intro hne; exact absurd rfl hne
  split
  · intro hne; exact absurd rfl hne
  split
  case isTrue => intro hne; exact absurd rfl hne
  case isFalse hseen =>
    split
    case isTrue =>
      split
      · intro hne; exact absurd rfl hne
      · intro hne; exact absurd rfl hne
    case isFalse =>
      split
      case isTrue =>
        split
        case h_1 => intro hne; exact absurd rfl hne
        case h_2 kind heq =>
          intro hne
          exact ⟨kind, rfl, hseen,
            List.mem_append_right _ (List.mem_singleton_self _)⟩
      case isFalse => intro hne; exact absurd rfl hne

/-- A one-directory, one-file filesystem used to instantiate the scanner
theorems at a concrete input. -/
def witnessScanCfg : ScannerConfig :=
  { types := [("video", { pattern := fun p => strEndsWith p ".mp4" })] }

/-- The filesystem for the witness scan: `/r` containing `a.mp4`. -/
def witnessScanEnv : ScanEnv :=
  { readdir := fun d => if d == "/r" then [{ name := "a.mp4", isFile := true }] else []
    resolve := fun p => p }

theorem scanner_emits_each_real_path_once_witness :
    "/r/a.mp4" ∈ (Scanner.run witnessScanCfg witnessScanEnv 2
        (Scanner.initState ["/r"])).emitted.map Prod.snd ∧
    "/r/a.mp4" ∈ (Scanner.run witnessScanCfg witnessScanEnv 2
        (Scanner.initState ["/r"])).seen :=
  ⟨by decide,
   (scanner_emits_each_real_path_once witnessScanCfg witnessScanEnv 2 ["/r"]).2.1
     "/r/a.mp4" (by decide)⟩

/-- The deep-directory scenario: the root `/r` is queued at depth 26, beyond
the default `maxDepth = 25`, and contains one subdirectory. -/
def deepScanCfg : ScannerConfig := {}

/-- The filesystem for the deep-directory scenario. -/
def deepScanEnv : ScanEnv :=
  { readdir := fun d => if d == "/r" then [{ name := "sub", isDirectory := true }] else []
    resolve := fun p => p }

/-- C4 (refuting the claim, supporting the code-bug verdict): on a queue item
whose depth exceeds `maxDepth`, the worker does log the deep-directory
warning — but it still scans the directory and still enqueues its
subdirectory at `depth + 1`.  The `depth > maxDepth` branch of the source has
no `return`, contradicting both its own "skipping deep directory" log message
and the required "warn, then do not descend further" behaviour. -/
theorem scanner_deep_directory_still_descends :
    (Scanner.processItem deepScanCfg deepScanEnv {} ⟨"/r", 26⟩).warnings = ["/r"] ∧
    (Scanner.processItem deepScanCfg deepScanEnv {} ⟨"/r", 26⟩).queue = [⟨"/r/sub", 27⟩] :=
  ⟨by decide, by decide⟩

/-! ## Duplicate-merge and record-construction lemmas -/

theorem mem_dedupAppend (l : List String) (y x : String) :
    x ∈ dedupAppend l y ↔ x ∈ l ∨ x = y := by
  unfold dedupAppend
  by_cases h : y ∈ l
  · simp only [if_pos h]
    constructor
    · exact Or.inl
    · rintro (hx | rfl)
      · exact hx
      · exact h
  · simp [if_neg h]

/-- Tagging never changes the identity fields of a record, so it preserves
the sources invariant. -/
theorem recordInvariant_tag (tagger : Option (List String → List String))
    (now : Nat) (m : MediaRecord) (h : recordInvariant m) :
    recordInvariant (Common.tag tagger now m) := by
  cases tagger with
  | none => exact h
  | some f => exact h

theorem recordInvariant_video_model (cfg : VideoConfig) (now : Nat)
    (id hash : String) (occurrence : Occurrence)
    (occurrences : Option (List Occurrence)) (output : String)
    (convertedSize convertedMtime : Nat) (thumbnail preview : String)
    (subtitles : Option String) (info : ProbeInfo) (sound : Sound) :
    recordInvariant (Video.model cfg now id hash occurrence occurrences output
      convertedSize convertedMtime thumbnail preview subtitles info sound) := by
  unfold Video.model recordInvariant hashInSources
  dsimp only
  refine ⟨?_, ?_, ?_⟩
  · rw [mem_dedupList]; simp
  · rw [mem_dedupList]; simp
  · intro o ho
    rw [mem_dedupList]
    cases occurrences with
    | none =>
      simp only [Option.getD_none, List.mem_singleton] at ho
      subst ho
      simp
    | some items =>
      simp only [Option.getD_some] at ho
      have hmem : o.id ∈ items.map (·.id) := List.mem_map_of_mem _ ho
      simp [List.mem_append, hmem]

theorem recordInvariant_image_model (cfg : ImageConfig) (now : Nat)
    (id hash : String) (occurrence : Occurrence)
    (occurrences : Option (List Occurrence)) (output : String)
    (statSize statMtime : Nat) (thumbnail : String) (preview : Option String)
    (details : ImageDetails) :
    recordInvariant (Image.model cfg now id hash occurrence occurrences output
      statSize statMtime thumbnail preview details) := by
  unfold Image.model recordInvariant hashInSources
  dsimp only
  refine ⟨?_, ?_, ?_⟩
  · rw [mem_dedupList]; simp
  · rw [mem_dedupList]; simp
  · intro o ho
    rw [mem_dedupList]
    cases occurrences with
    | none =>
      simp only [Option.getD_none, List.mem_singleton] at ho
      subst ho
      simp
    | some items =>
      simp only [Option.getD_some] at ho
      have hmem : o.id ∈ items.map (·.id) := List.mem_map_of_mem _ ho
      simp [List.mem_append, hmem]

theorem recordInvariant_text_model (cfg : TextConfig) (now : Nat) (id : String)
    (occurrence : Occurrence) (occurrences : Option (List Occurrence))
    (output : String) (statSize statMtime : Nat) :
    recordInvariant (Text.model cfg now id occurrence occurrences output
      statSize statMtime) := by
  unfold Text.model recordInvariant hashInSources
  dsimp only
  refine ⟨?_, trivial, ?_⟩
  · rw [mem_dedupList]; simp
  · intro o ho
    rw [mem_dedupList]
    cases occurrences with
    | none =>
      simp only [Option.getD_none, List.mem_singleton] at ho
      subst ho
      simp
    | some items =>
      simp only [Option.getD_some] at ho
      have hmem : o.id ∈ items.map (·.id) := List.mem_map_of_mem _ ho
      simp [List.mem_append, hmem]

theorem recordInvariant_text_finalModel (cfg : TextConfig) (now : Nat)
    (id : String) (occurrence : Occurrence) (occurrences : Option (List Occurrence))
    (output : String) (statSize statMtime : Nat) (text hash : String)
    (summary : Option String) (outputSize : Nat) :
    recordInvariant (Text.finalModel cfg now id occurrence occurrences output
      statSize statMtime text hash summary outputSize) := by
  unfold Text.finalModel
  dsimp only
  apply recordInvariant_tag
  have h0 := recordInvariant_text_model cfg now id occurrence occurrences output
    statSize statMtime
  obtain ⟨h1, -, h3⟩ := h0
  refine ⟨?_, ?_, ?_⟩
  · exact (mem_dedupAppend _ _ _).mpr (Or.inl h1)
  · show hashInSources _
    unfold hashInSources
    exact (mem_dedupAppend _ _ _).mpr (Or.inr rfl)
  · intro o ho
    exact (mem_dedupAppend _ _ _).mpr (Or.inl (h3 o ho))

theorem recordInvariant_duplicate (tagger : Option (List String → List String))
    (now : Nat) (model : MediaRecord) (occurrence : Occurrence) :
    recordInvariant (Common.duplicate tagger now model occurrence) := by
  unfold Common.duplicate
  dsimp only
  apply recordInvariant_tag
  refine ⟨?_, ?_, ?_⟩
  · rw [mem_dedupList]; simp
  · show hashInSources _
    unfold hashInSources
    dsimp only
    cases hh : model.hash with
    | none => trivial
    | some h =>
      dsimp only
      rw [mem_dedupList]
      simp
  · intro o ho
    rw [mem_dedupList]
    have hmem : o.id ∈ (if model.metadata.occurrences.any
        (fun item => item.file == occurrence.file)
        then model.metadata.occurrences
        else model.metadata.occurrences ++ [occurrence]).map (·.id) :=
      List.mem_map_of_mem _ ho
    simp only [List.mem_append]
    exact Or.inr hmem

/-- C2: every record value the pipelines hand to `insert` (the tagged video
and image models, and the text pipeline's final pre-insert model) and every
record rewritten by the duplicate-merge protocol satisfies the sources
invariant: its id is in its sources, its hash is in its sources, and the id
of each of its occurrences is in its sources. -/
theorem records_satisfy_sources_invariant :
    (∀ (cfg : VideoConfig) (now : Nat) (id hash : String) (occurrence : Occurrence)
       (occurrences : Option (List Occurrence)) (output : String)
       (convertedSize convertedMtime : Nat) (thumbnail preview : String)
       (subtitles : Option String) (info : ProbeInfo) (sound : Sound),
      recordInvariant (Common.tag cfg.tagger now
        (Video.model cfg now id hash occurrence occurrences output convertedSize
          convertedMtime thumbnail preview subtitles info sound))) ∧
    (∀ (cfg : ImageConfig) (now : Nat) (id hash : String) (occurrence : Occurrence)
       (occurrences : Option (List Occurrence)) (output : String)
       (statSize statMtime : Nat) (thumbnail : String) (preview : Option String)
       (details : ImageDetails),
      recordInvariant (Common.tag cfg.tagger now
        (Image.model cfg now id hash occurrence occurrences output statSize
          statMtime thumbnail preview details))) ∧
    (∀ (cfg : TextConfig) (now : Nat) (id : String) (occurrence : Occurrence)
       (occurrences : Option (List Occurrence)) (output : String)
       (statSize statMtime : Nat) (text hash : String) (summary : Option String)
       (outputSize : Nat),
      recordInvariant (Text.finalModel cfg now id occurrence occurrences output
        statSize statMtime text hash summary outputSize)) ∧
    (∀ (tagger : Option (List String → List String)) (now : Nat)
       (model : MediaRecord) (occurrence : Occurrence),
      recordInvariant (Common.duplicate tagger now model occurrence)) :=
  ⟨fun cfg now id hash occurrence occurrences output cs cm th pv sub info sound =>
     recordInvariant_tag _ _ _
       (recordInvariant_video_model cfg now id hash occurrence occurrences output
         cs cm th pv sub info sound),
   fun cfg now id hash occurrence occurrences output ss sm th pv details =>
     recordInvariant_tag _ _ _
       (recordInvariant_image_model cfg now id hash occurrence occurrences output
         ss sm th pv details),
   recordInvariant_text_finalModel,
   recordInvariant_duplicate⟩

/-- A small concrete occurrence used to instantiate theorems. -/
def sampleOccurrence : Occurrence :=
  { id := "aa11", file := "/in/one.mp4", path := "/in/", name := "one", extension := "mp4" }

/-- A second occurrence, for a different file of the same work. -/
def sampleOccurrenceB : Occurrence :=
  { id := "bb22", file := "/in/two.mp4", path := "/in/", name := "two", extension := "mp4" }

/-- A small concrete catalog record used to instantiate theorems. -/
def sampleRecord : MediaRecord :=
  { id := "aa11", object := "video", version := "1", name := "one", description := ""
    hash := some "cc33", sources := ["aa11", "cc33"], relative := "aa/11.mp4"
    size := 0
    metadata := { created := 0, added := 0, updated := 0, occurrences := [sampleOccurrence] } }

theorem records_satisfy_sources_invariant_witness :
    recordInvariant (Common.duplicate none 0 sampleRecord sampleOccurrenceB) :=
  records_satisfy_sources_invariant.2.2.2 none 0 sampleRecord sampleOccurrenceB

/-- The occurrence list of the merged record: the occurrence is appended
exactly when no existing occurrence has the same file (tagging does not touch
the occurrence list). -/
theorem duplicate_occurrences_eq (tagger : Option (List String → List String))
    (now : Nat) (model : MediaRecord) (occurrence : Occurrence) :
    (Common.duplicate tagger now model occurrence).metadata.occurrences =
      (if model.metadata.occurrences.any (fun item => item.file == occurrence.file)
       then model.metadata.occurrences
       else model.metadata.occurrences ++ [occurrence]) := by
  cases tagger <;> rfl

theorem duplicate_preserves_distinct_files (tagger : Option (List String → List String))
    (now : Nat) (model : MediaRecord) (occurrence : Occurrence)
    (h : occurrenceFilesNodup model) :
    occurrenceFilesNodup (Common.duplicate tagger now model occurrence) := by
  unfold occurrenceFilesNodup at *
  rw [duplicate_occurrences_eq]
  split
  · exact h
  · rename_i hany
    rw [List.map_append]
    simp only [List.map_cons, List.map_nil]
    rw [List.nodup_append]
    refine ⟨h, List.nodup_singleton _, ?_⟩
    intro f hf hg
    simp only [List.mem_singleton] at hg
    subst hg
    rw [List.mem_map] at hf
    obtain ⟨item, hitem, hfile⟩ := hf
    apply hany
    rw [List.any_eq_true]
    exact ⟨item, hitem, by rw [hfile]; simp⟩

/-- C3: no two occurrences of a record share a `file`: the duplicate-merge
appends the new occurrence if and only if no existing occurrence has the same
file (first conjunct, as the exact occurrence-list equation), hence it
preserves file-distinctness (second conjunct); and record construction
yields a file-distinct occurrence list whenever the accumulated occurrences
it is given are file-distinct (remaining conjuncts; with no accumulated list
the constructors use the singleton `[occurrence]`, distinct trivially). -/
theorem occurrences_files_distinct :
    (∀ (tagger : Option (List String → List String)) (now : Nat)
       (model : MediaRecord) (occurrence : Occurrence),
      (Common.duplicate tagger now model occurrence).metadata.occurrences =
        (if model.metadata.occurrences.any (fun item => item.file == occurrence.file)
         then model.metadata.occurrences
         else model.metadata.occurrences ++ [occurrence])) ∧
    (∀ (tagger : Option (List String → List String)) (now : Nat)
       (model : MediaRecord) (occurrence : Occurrence),
      occurrenceFilesNodup model →
        occurrenceFilesNodup (Common.duplicate tagger now model occurrence)) ∧
    (∀ (cfg : VideoConfig) (now : Nat) (id hash : String) (occurrence : Occurrence)
       (occurrences : Option (List Occurrence)) (output : String)
       (convertedSize convertedMtime : Nat) (thumbnail preview : String)
       (subtitles : Option String) (info : ProbeInfo) (sound : Sound),
      ((occurrences.getD [occurrence]).map (·.file)).Nodup →
        occurrenceFilesNodup (Video.model cfg now id hash occurrence occurrences
          output convertedSize convertedMtime thumbnail preview subtitles info sound)) ∧
    (∀ (cfg : ImageConfig) (now : Nat) (id hash : String) (occurrence : Occurrence)
       (occurrences : Option (List Occurrence)) (output : String)
       (statSize statMtime : Nat) (thumbnail : String) (preview : Option String)
       (details : ImageDetails),
      ((occurrences.getD [occurrence]).map (·.file)).Nodup →
        occurrenceFilesNodup (Image.model cfg now id hash occurrence occurrences
          output statSize statMtime thumbnail preview details)) ∧
    (∀ (cfg : TextConfig) (now : Nat) (id : String) (occurrence : Occurrence)
       (occurrences : Option (List Occurrence)) (output : String)
       (statSize statMtime : Nat) (text hash : String) (summary : Option String)
       (outputSize : Nat),
      ((occurrences.getD [occurrence]).map (·.file)).Nodup →
        occurrenceFilesNodup (Text.finalModel cfg now id occurrence occurrences
          output statSize statMtime text hash summary outputSize)) :=
  ⟨duplicate_occurrences_eq,
   duplicate_preserves_distinct_files,
   fun _ _ _ _ _ _ _ _ _ _ _ _ _ _ h => h,
   fun _ _ _ _ _ _ _ _ _ _ _ _ h => h,
   fun cfg now id occurrence occurrences output ss sm text hash summary osz h => by
     unfold occurrenceFilesNodup Text.finalModel
     cases cfg.tagger <;> exact h⟩

theorem occurrences_files_distinct_witness :
    occurrenceFilesNodup sampleRecord ∧
    occurrenceFilesNodup (Common.duplicate none 0 sampleRecord sampleOccurrenceB) :=
  ⟨by decide,
   occurrences_files_distinct.2.1 none 0 sampleRecord sampleOccurrenceB (by decide)⟩

/-- C7: the duplicate-merge never removes a fingerprint: on any record whose
sources are contained in `{id, hash}` together with its occurrence ids (the
invariant the catalog maintains), the merged record's sources are a superset
of the previous ones. -/
theorem duplicate_sources_grow_monotonically
    (tagger : Option (List String → List String)) (now : Nat)
    (model : MediaRecord) (occurrence : Occurrence)
    (hsub : ∀ src ∈ model.sources, src = model.id ∨ model.hash = some src ∨
      src ∈ model.metadata.occurrences.map (·.id)) :
    model.sources ⊆ (Common.duplicate tagger now model occurrence).sources := by
  intro src hs
  have hsources : (Common.duplicate tagger now model occurrence).sources =
      dedupList (([model.id] ++
          (match model.hash with | some h => [h] | none => []) ++
          [occurrence.id] ++
          (if model.metadata.occurrences.any (fun item => item.file == occurrence.file)
           then model.metadata.occurrences
           else model.metadata.occurrences ++ [occurrence]).map (·.id))) := by
    cases tagger <;> rfl
  rw [hsources, mem_dedupList]
  simp only [List.mem_append]
  rcases hsub src hs with rfl | hhash | hocc
  · left; left; simp
  · left; left
    rw [hhash]
    simp
  · right
    split
    · exact hocc
    · rw [List.map_append]
      exact List.mem_append_left _ hocc

theorem duplicate_sources_grow_monotonically_witness :
    (∀ src ∈ sampleRecord.sources, src = sampleRecord.id ∨
      sampleRecord.hash = some src ∨
      src ∈ sampleRecord.metadata.occurrences.map (·.id)) ∧
    sampleRecord.sources ⊆
      (Common.duplicate none 0 sampleRecord sampleOccurrenceB).sources :=
  ⟨by decide,
   duplicate_sources_grow_monotonically none 0 sampleRecord sampleOccurrenceB (by decide)⟩

/-! ## Thumbnail capture time -/

theorem thumbnailCaptureTime_num (t q : ℚ) :
    thumbnailCaptureTime (.num t) (.num q) =
      if ⌊min t (q - 1)⌋ < 0 then .num 0 else .num ((⌊min t (q - 1)⌋ : ℤ) : ℚ) := by
  unfold thumbnailCaptureTime
  simp only [JSNum.subOne, jsMin, JSNum.floor, JSNum.isNaN, JSNum.isPosInf,
    JSNum.lt0, Bool.false_or]
  by_cases h : ⌊min t (q - 1)⌋ < 0
  · have hc : ((⌊min t (q - 1)⌋ : ℚ) < 0) := by exact_mod_cast h
    simp [h, hc]
  · have hc : ¬((⌊min t (q - 1)⌋ : ℚ) < 0) := by exact_mod_cast h
    simp [h, hc]

/-- C6 counterexample: with the default `thumbnailTime = 5` and a probed
duration of `+Infinity`, the computed value is
`floor(min(5, Infinity - 1)) = 5`; it is not NaN, not `Infinity` and not
negative, so the guard leaves it alone and the thumbnail is taken at
`t = 5` — not at `t = 0` as the claim states for every infinite duration. -/
theorem thumbnail_time_infinite_duration_not_zero :
    thumbnailCaptureTime (JSNum.num 5) JSNum.inf = JSNum.num 5 ∧
    thumbnailCaptureTime (JSNum.num 5) JSNum.inf ≠ JSNum.num 0 :=
  ⟨by decide, by decide⟩

/-- C6 (amended): the thumbnail capture time is
`floor(min(thumbnailTime, duration - 1))` with a NaN, infinite or negative
computed value replaced by 0; consequently, for a non-negative finite
`thumbnailTime`: every finite probed duration at most 1 gives `t = 0`, a NaN
probed duration gives `t = 0`, a `-Infinity` probed duration gives `t = 0`,
while a `+Infinity` probed duration gives `t = ⌊thumbnailTime⌋` (the guard
only replaces the computed value, which is then finite and non-negative). -/
theorem thumbnail_capture_time_guard (t : ℚ) (ht : 0 ≤ t) :
    (∀ q : ℚ, q ≤ 1 → thumbnailCaptureTime (JSNum.num t) (JSNum.num q) = JSNum.num 0) ∧
    thumbnailCaptureTime (JSNum.num t) JSNum.nan = JSNum.num 0 ∧
    thumbnailCaptureTime (JSNum.num t) JSNum.ninf = JSNum.num 0 ∧
    thumbnailCaptureTime (JSNum.num t) JSNum.inf = JSNum.num ((⌊t⌋ : ℤ) : ℚ) := by
  refine ⟨?_, rfl, rfl, ?_⟩
  · intro q hq
    rw [thumbnailCaptureTime_num]
    split
    · rfl
    · rename_i hge
      push_neg at hge
      have h1 : min t (q - 1) ≤ 0 := le_trans (min_le_right _ _) (by linarith)
      have h2 : ⌊min t (q - 1)⌋ ≤ 0 := by
        simpa using Int.floor_le_floor h1
      have h3 : ⌊min t (q - 1)⌋ = 0 := le_antisymm h2 hge
      rw [h3]
      norm_num
  · unfold thumbnailCaptureTime
    simp only [JSNum.subOne, jsMin, JSNum.floor, JSNum.isNaN, JSNum.isPosInf,
      JSNum.lt0, Bool.false_or]
    have h0 : ¬((⌊t⌋ : ℚ) < 0) := by
      push_neg
      exact_mod_cast Int.floor_nonneg.mpr ht
    simp [h0]

theorem thumbnail_capture_time_guard_witness :
    (0:ℚ) ≤ 5 ∧ thumbnailCaptureTime (JSNum.num 5) JSNum.nan = JSNum.num 0 :=
  ⟨by norm_num, (thumbnail_capture_time_guard 5 (by norm_num)).2.1⟩

/-! ## Video pipeline theorems -/

/-- C5: when the transcode process exits non-zero, the video pipeline
best-effort deletes the partial output, counts one failure, and returns:
the catalog is untouched, nothing is inserted, the converted counter does not
move, and none of the post-convert steps run — no hash of the output (the
only hash in the trace is the source's), no thumbnail, no sound check, no
preview. -/
theorem video_convert_failure_stops (cfg : VideoConfig) (env : VideoEnv)
    (s : IndexerState) (file : String)
    (hskip : Common.skip cfg.canSkip cfg.deletePolicy s file = none)
    (hin : env.inflightMatch = false)
    (hlook : Common.lookup s.catalog env.sourceHash = none)
    (hexit : env.convertExit ≠ 0) :
    (Video.converter cfg env s file).1.catalog = s.catalog ∧
    (Video.converter cfg env s file).1.stats.failed = s.stats.failed + 1 ∧
    (Video.converter cfg env s file).1.stats.converted = s.stats.converted ∧
    Effect.unlink (Video.outputPath cfg env.sourceHash)
      ∈ (Video.converter cfg env s file).2 ∧
    (∀ r, Effect.insert r ∉ (Video.converter cfg env s file).2) ∧
    (∀ p, Effect.hashFile p ∈ (Video.converter cfg env s file).2 → p = file) ∧
    (∀ o t tm, Effect.thumbnailExec o t tm ∉ (Video.converter cfg env s file).2) ∧
    (∀ p, Effect.soundExec p ∉ (Video.converter cfg env s file).2) ∧
    (∀ a b, Effect.previewExec a b ∉ (Video.converter cfg env s file).2) := by
  have hred : Video.converter cfg env s file =
      ({ s with stats := { s.stats with failed := s.stats.failed + 1 } },
       [Effect.hashFile file, Effect.probeFile file,
        Effect.mkdir (Video.directoryPath cfg env.sourceHash),
        Effect.subtitleExtract (Video.subtitlesPath cfg env.sourceHash),
        Effect.convertSpawn file (Video.outputPath cfg env.sourceHash),
        Effect.unlink (Video.outputPath cfg env.sourceHash)]) := by
    simp [Video.converter, hskip, hin, hlook, hexit]
  rw [hred]
  refine ⟨rfl, rfl, rfl, by simp, ?_, ?_, ?_, ?_, ?_⟩
  · intro r
    simp
  · intro p hp
    simp at hp
    exact hp
  · intro o t tm
    simp
  · intro p
    simp
  · intro a b
    simp

/-- Configuration shared by the concrete video runs: elastic disabled and
sound checking off, so no external policies interfere. -/
def witCfgVideo : VideoConfig :=
  { save := "/save", checkSound := false, elasticEnabled := false }

/-- A failing transcode. -/
def witEnvFail : VideoEnv := { sourceHash := "aa11", outputHash := "cc33", convertExit := 1 }

/-- An empty catalog and zeroed stats. -/
def emptyState : IndexerState := { catalog := [], stats := {} }

theorem video_convert_failure_stops_witness :
    (Video.converter witCfgVideo witEnvFail emptyState "/in/one.mp4").1.stats.failed =
      emptyState.stats.failed + 1 ∧
    Effect.unlink (Video.outputPath witCfgVideo "aa11")
      ∈ (Video.converter witCfgVideo witEnvFail emptyState "/in/one.mp4").2 :=
  ⟨(video_convert_failure_stops witCfgVideo witEnvFail emptyState "/in/one.mp4"
      (by decide) rfl (by decide) (by decide)).2.1,
   (video_convert_failure_stops witCfgVideo witEnvFail emptyState "/in/one.mp4"
      (by decide) rfl (by decide) (by decide)).2.2.2.1⟩

/-- Run 1 of the spec's "two works transcoding to identical bytes" scenario:
source fingerprint `aa11`, output fingerprint `cc33`. -/
def scenEnvRun1 : VideoEnv :=
  { sourceHash := "aa11", outputHash := "cc33", convertExit := 0
    info := { formatDuration := some (.num 10) }
    outputInfo := { formatDuration := some (.num 10) }
    now := 100 }

/-- Run 2: a different source fingerprint `bb22` whose transcoded output has
the same fingerprint `cc33`. -/
def scenEnvRun2 : VideoEnv := { scenEnvRun1 with sourceHash := "bb22", now := 200 }

/-- The catalog and stats after run 1 (one inserted record). -/
def scenarioAfterRun1 : IndexerState :=
  (Video.converter witCfgVideo scenEnvRun1 emptyState "/in/one.mp4").1

/-- The catalog and stats after run 2 hits the post-convert duplicate path. -/
def scenarioFinal : IndexerState :=
  (Video.converter witCfgVideo scenEnvRun2 scenarioAfterRun1 "/in/two.mp4").1

/-- C1: when the fingerprint of the transcoded output matches an existing
catalog record, the video pipeline runs the duplicate-merge protocol with
that record and the current occurrence (replacing the record in the catalog),
deletes the transcoded output file, best-effort removes the shard directory,
counts a duplicate instead of a conversion, and inserts nothing; the merge
leaves the surviving record's hash unchanged.  In the spec's scenario of two
distinct source fingerprints with an identical output fingerprint (final four
conjuncts, a concrete two-run execution), the surviving record's hash equals
the output fingerprint and its sources contain both source fingerprints and
the output fingerprint, with `converted = 1` and `duplicates = 1`. -/
theorem video_output_duplicate_merges (cfg : VideoConfig) (env : VideoEnv)
    (s : IndexerState) (file : String) (rec : MediaRecord)
    (hskip : Common.skip cfg.canSkip cfg.deletePolicy s file = none)
    (hin : env.inflightMatch = false)
    (hsrc : Common.lookup s.catalog env.sourceHash = none)
    (hexit : env.convertExit = 0)
    (hdup : Common.lookup s.catalog env.outputHash = some rec) :
    (Video.converter cfg env s file).1.catalog =
      replaceFirstById s.catalog rec.id
        (Common.duplicate cfg.tagger env.now rec (Video.statOccurrence env file)) ∧
    (Video.converter cfg env s file).1.stats.duplicates = s.stats.duplicates + 1 ∧
    (Video.converter cfg env s file).1.stats.converted = s.stats.converted ∧
    Effect.replaceRecord rec.id
        (Common.duplicate cfg.tagger env.now rec (Video.statOccurrence env file))
      ∈ (Video.converter cfg env s file).2 ∧
    Effect.unlink (Video.outputPath cfg env.sourceHash)
      ∈ (Video.converter cfg env s file).2 ∧
    Effect.rmdir (Video.directoryPath cfg env.sourceHash)
      ∈ (Video.converter cfg env s file).2 ∧
    (∀ r, Effect.insert r ∉ (Video.converter cfg env s file).2) ∧
    (Common.duplicate cfg.tagger env.now rec (Video.statOccurrence env file)).hash
      = rec.hash ∧
    scenarioFinal.catalog.length = 1 ∧
    (∀ r ∈ scenarioFinal.catalog, r.hash = some "cc33" ∧
      "aa11" ∈ r.sources ∧ "bb22" ∈ r.sources ∧ "cc33" ∈ r.sources) ∧
    scenarioFinal.stats.converted = 1 ∧
    scenarioFinal.stats.duplicates = 1 := by
  have hred : Video.converter cfg env s file =
      ({ catalog := replaceFirstById s.catalog rec.id
            (Common.duplicate cfg.tagger env.now rec (Video.statOccurrence env file)),
         stats := { s.stats with duplicates := s.stats.duplicates + 1 } },
       [Effect.hashFile file, Effect.probeFile file,
        Effect.mkdir (Video.directoryPath cfg env.sourceHash),
        Effect.subtitleExtract (Video.subtitlesPath cfg env.sourceHash),
        Effect.convertSpawn file (Video.outputPath cfg env.sourceHash),
        Effect.chmod (Video.outputPath cfg env.sourceHash),
        Effect.hashFile (Video.outputPath cfg env.sourceHash),
        Effect.replaceRecord rec.id
          (Common.duplicate cfg.tagger env.now rec (Video.statOccurrence env file))] ++
         Common.deleteFile cfg.deletePolicy (Video.statOccurrence env file).file ++
         [Effect.emit ("duplicate:" ++ rec.object),
          Effect.unlink (Video.outputPath cfg env.sourceHash),
          Effect.rmdir (Video.directoryPath cfg env.sourceHash)]) := by
    simp [Video.converter, Common.runDuplicate, hskip, hin, hsrc,
      hexit, hdup]
  rw [hred]
  refine ⟨rfl, rfl, rfl, ?_, ?_, ?_, ?_, ?_, ?_, ?_, ?_, ?_⟩
  · cases hd : cfg.deletePolicy <;> simp [Common.deleteFile, hd]
  · cases hd : cfg.deletePolicy <;> simp [Common.deleteFile, hd]
  · cases hd : cfg.deletePolicy <;> simp [Common.deleteFile, hd]
  · intro r
    cases hd : cfg.deletePolicy <;> simp [Common.deleteFile, hd]
  · cases cfg.tagger <;> rfl
  · decide
  · decide
  · decide
  · decide

/-- The record inserted by run 1, which run 2's post-convert lookup finds. -/
def scenarioRun1Record : MediaRecord := scenarioAfterRun1.catalog.headD sampleRecord

theorem video_output_duplicate_merges_witness :
    (Video.converter witCfgVideo scenEnvRun2 scenarioAfterRun1 "/in/two.mp4").1.stats.duplicates
      = scenarioAfterRun1.stats.duplicates + 1 ∧
    (∀ r, Effect.insert r
      ∉ (Video.converter witCfgVideo scenEnvRun2 scenarioAfterRun1 "/in/two.mp4").2) ∧
    scenarioFinal.stats.duplicates = 1 :=
  ⟨(video_output_duplicate_merges witCfgVideo scenEnvRun2 scenarioAfterRun1 "/in/two.mp4"
      scenarioRun1Record (by decide) rfl (by decide) rfl (by decide)).2.1,
   (video_output_duplicate_merges witCfgVideo scenEnvRun2 scenarioAfterRun1 "/in/two.mp4"
      scenarioRun1Record (by decide) rfl (by decide) rfl (by decide)).2.2.2.2.2.2.1,
   (video_output_duplicate_merges witCfgVideo scenEnvRun2 scenarioAfterRun1 "/in/two.mp4"
      scenarioRun1Record (by decide) rfl (by decide) rfl (by decide)).2.2.2.2.2.2.2.2.2.2.2⟩

/-! ## Text pipeline theorems -/

/-- C10: a text conversion that inserts a record sends the full text to the
search index and writes it (compressed per configuration) to the canonical
artifact, but the transient `contents` field is deleted before insertion:
the inserted record — indeed every record this run inserts — carries no
contents. -/
theorem text_catalog_never_stores_contents (cfg : TextConfig) (env : TextEnv)
    (s : IndexerState) (file : String)
    (hskip : Common.skip cfg.canSkip cfg.deletePolicy s file = none)
    (hin : env.inflightMatch = false)
    (hlook : Common.lookup s.catalog env.sourceHash = none)
    (hthr : (match cfg.threshold with
             | some t => decide (env.statSize < t)
             | none => false) = false)
    (hhash : (if env.md5 == env.sourceHash then none
              else Common.lookup s.catalog env.md5) = none) :
    (Text.converter cfg env s file).1.catalog =
      s.catalog ++ [Text.finalModel cfg env.now env.sourceHash
        (Text.statOccurrence env file) (some [Text.statOccurrence env file])
        (Text.outputPath cfg env.sourceHash (splitName file).2)
        env.statSize env.statMtime (Text.processedText cfg env) env.md5
        env.summary env.outputSize] ∧
    (Text.finalModel cfg env.now env.sourceHash
        (Text.statOccurrence env file) (some [Text.statOccurrence env file])
        (Text.outputPath cfg env.sourceHash (splitName file).2)
        env.statSize env.statMtime (Text.processedText cfg env) env.md5
        env.summary env.outputSize).contents = none ∧
    Effect.elasticIndex cfg.index env.sourceHash (some (Text.processedText cfg env))
      ∈ (Text.converter cfg env s file).2 ∧
    Effect.writeFile (Text.outputPath cfg env.sourceHash (splitName file).2)
        (Text.compressBuffer (some cfg.compression) (Text.processedText cfg env))
      ∈ (Text.converter cfg env s file).2 ∧
    (∀ r, Effect.insert r ∈ (Text.converter cfg env s file).2 → r.contents = none) := by
  have hred : Text.converter cfg env s file =
      ({ catalog := s.catalog ++ [Text.finalModel cfg env.now env.sourceHash
            (Text.statOccurrence env file) (some [Text.statOccurrence env file])
            (Text.outputPath cfg env.sourceHash (splitName file).2)
            env.statSize env.statMtime (Text.processedText cfg env) env.md5
            env.summary env.outputSize]
         stats := { s.stats with
           text := s.stats.text + 1
           converted := s.stats.converted + 1 } },
       [Effect.hashFile file, Effect.statFile file,
        Effect.mkdir (joinPath cfg.save (strTake env.sourceHash 2)),
        Effect.readFile file,
        Effect.elasticIndex cfg.index env.sourceHash (some (Text.processedText cfg env)),
        Effect.elasticRefresh cfg.index,
        Effect.writeFile (Text.outputPath cfg env.sourceHash (splitName file).2)
          (Text.compressBuffer (some cfg.compression) (Text.processedText cfg env)),
        Effect.statFile (Text.outputPath cfg env.sourceHash (splitName file).2),
        Effect.insert (Text.finalModel cfg env.now env.sourceHash
          (Text.statOccurrence env file) (some [Text.statOccurrence env file])
          (Text.outputPath cfg env.sourceHash (splitName file).2)
          env.statSize env.statMtime (Text.processedText cfg env) env.md5
          env.summary env.outputSize)] ++
         Common.deleteFile cfg.deletePolicy file ++
         [Effect.emit "indexed:text"]) := by
    have hhash' : (if env.md5 = env.sourceHash then none
        else Common.lookup s.catalog env.md5) = none := by
      simpa using hhash
    simp [Text.converter, hskip, hin, hlook, hthr, hhash']
  rw [hred]
  refine ⟨rfl, rfl, ?_, ?_, ?_⟩
  · cases hd : cfg.deletePolicy <;> simp [Common.deleteFile, hd]
  · cases hd : cfg.deletePolicy <;> simp [Common.deleteFile, hd]
  · intro r hr
    have : r = Text.finalModel cfg env.now env.sourceHash
        (Text.statOccurrence env file) (some [Text.statOccurrence env file])
        (Text.outputPath cfg env.sourceHash (splitName file).2)
        env.statSize env.statMtime (Text.processedText cfg env) env.md5
        env.summary env.outputSize := by
      cases hd : cfg.deletePolicy <;> simp [Common.deleteFile, hd] at hr <;> exact hr
    rw [this]
    rfl

/-- A text conversion environment whose content hash equals the source
fingerprint. -/
def witEnvText : TextEnv :=
  { sourceHash := "dd44", md5 := "dd44", contents := "hello world",
    statSize := 2048, now := 7 }

theorem text_catalog_never_stores_contents_witness :
    (Text.converter { save := "/save" } witEnvText emptyState "/in/a.txt").1.catalog =
      emptyState.catalog ++ [Text.finalModel { save := "/save" } witEnvText.now
        witEnvText.sourceHash (Text.statOccurrence witEnvText "/in/a.txt")
        (some [Text.statOccurrence witEnvText "/in/a.txt"])
        (Text.outputPath { save := "/save" } witEnvText.sourceHash
          (splitName "/in/a.txt").2)
        witEnvText.statSize witEnvText.statMtime
        (Text.processedText { save := "/save" } witEnvText) witEnvText.md5
        witEnvText.summary witEnvText.outputSize] ∧
    (Text.finalModel { save := "/save" } witEnvText.now
        witEnvText.sourceHash (Text.statOccurrence witEnvText "/in/a.txt")
        (some [Text.statOccurrence witEnvText "/in/a.txt"])
        (Text.outputPath { save := "/save" } witEnvText.sourceHash
          (splitName "/in/a.txt").2)
        witEnvText.statSize witEnvText.statMtime
        (Text.processedText { save := "/save" } witEnvText) witEnvText.md5
        witEnvText.summary witEnvText.outputSize).contents = none :=
  ⟨(text_catalog_never_stores_contents { save := "/save" } witEnvText emptyState
      "/in/a.txt" (by decide) rfl (by decide) rfl (by decide)).1,
   (text_catalog_never_stores_contents { save := "/save" } witEnvText emptyState
      "/in/a.txt" (by decide) rfl (by decide) rfl (by decide)).2.1⟩

/-- The text configuration with the search index disabled. -/
def witCfgTextNoElastic : TextConfig := { save := "/save", elasticEnabled := false }

/-- C8 (refuting the claim, supporting the code-bug verdict): even with the
search index disabled (`services.elastic.enabled = false`), the text
converter still performs the search-index write and the refresh — the calls
at src/text.js lines 203–212 are unconditional, unlike the guarded calls of
the image and video pipelines.  (In the running system the never-started
client makes these calls throw, so with elastic disabled the conversion does
not complete either.) -/
theorem text_indexes_despite_disabled_elastic :
    witCfgTextNoElastic.elasticEnabled = false ∧
    Effect.elasticIndex "media-text" "dd44" (some "hello world")
      ∈ (Text.converter witCfgTextNoElastic witEnvText emptyState "/in/a.txt").2 ∧
    Effect.elasticRefresh "media-text"
      ∈ (Text.converter witCfgTextNoElastic witEnvText emptyState "/in/a.txt").2 :=
  ⟨rfl, by decide, by decide⟩

end Indexer
